import Mathlib

/-!
Verification development for the `threader` task-dispatch core
(`src/worker_pool.rs`, `src/task_executor.rs`, binding layer in `src/lib.rs`).

The Rust code is shallowly embedded: pure functions become Lean functions,
the tokio dispatcher loop becomes a step relation on an explicit state,
`Result<T, E>` becomes `Except E T`, `u64` durations become `Nat`
milliseconds, and `serde_json::Value` becomes the inductive `Json` below
(with `f64` numbers modelled as exact rationals; no claim here depends on
floating-point rounding).
-/

namespace Threader

/-- Model of `serde_json::Value`.  `f64` numbers are modelled as `ℚ`. -/
inductive Json where
  | null
  | bool (b : Bool)
  | num (x : ℚ)
  | str (s : String)
  | arr (elems : List Json)
  | obj (fields : List (String × Json))

/-- `serde_json::Value::as_f64` (numbers only; other variants give `None`). -/
def Json.as_f64 : Json → Option ℚ
  | .num x => some x
  | _ => none

/-- `serde_json::Value::as_str`. -/
def Json.as_str : Json → Option String
  | .str s => some s
  | _ => none

/-- `serde_json::Value::as_array`. -/
def Json.as_array : Json → Option (List Json)
  | .arr xs => some xs
  | _ => none

/-- Helper for substring search: does the char list start with `pat`? -/
def charsHavePre : List Char → List Char → Bool
  | [], _ => true
  | _ :: _, [] => false
  | a :: as, b :: bs => a == b && charsHavePre as bs

/-- Does the char list contain `pat` as a contiguous run? -/
def charsContain (pat : List Char) : List Char → Bool
  | [] => charsHavePre pat []
  | c :: cs => charsHavePre pat (c :: cs) || charsContain pat cs

/-- Model of Rust `str::contains(pat)` (substring containment). -/
def strContains (s pat : String) : Bool :=
  charsContain pat.data s.data

/-- Model of Rust `str::to_uppercase` restricted to ASCII (the function
strings and data used in this development are ASCII; full Unicode case
mapping is irrelevant to every claim). -/
def charUpper (c : Char) : Char :=
  if 'a' ≤ c ∧ c ≤ 'z' then Char.ofNat (c.toNat - 32) else c

def strToUpper (s : String) : String :=
  ⟨s.data.map charUpper⟩

/-- Model of Rust `str::len` (UTF-8 byte length). -/
def strByteLen (s : String) : Nat :=
  s.data.foldl (fun n c => n + c.utf8Size) 0

/-- `WorkerPool::execute_function` (`src/worker_pool.rs` lines 142-187):
closed-set pattern matching on the function string; unknown patterns
return the data unchanged (identity). -/
def execute_function (function_string : String) (data : Json) :
    Except String Json :=
  if strContains function_string "x => x * 2" ||
      strContains function_string "(x) => x * 2" then
    match data.as_f64 with
    | some num => .ok (.num (num * 2))
    | none => .error "Expected number for multiplication"
  else if strContains function_string "x => x + 1" ||
      strContains function_string "(x) => x + 1" then
    match data.as_f64 with
    | some num => .ok (.num (num + 1))
    | none => .error "Expected number for addition"
  else if strContains function_string "x => x.length" ||
      strContains function_string "(x) => x.length" then
    match data.as_array with
    | some arr => .ok (.num (arr.length : ℚ))
    | none =>
      match data.as_str with
      | some s => .ok (.num (strByteLen s : ℚ))
      | none => .error "Expected array or string for length"
  else if strContains function_string "x => x.toUpperCase()" ||
      strContains function_string "(x) => x.toUpperCase()" then
    match data.as_str with
    | some s => .ok (.str (strToUpper s))
    | none => .error "Expected string for toUpperCase"
  else
    .ok data

/-! ## Worker pool (`src/worker_pool.rs`) -/

/-- `WorkerPoolError` (`src/worker_pool.rs` lines 8-15). -/
inductive WorkerPoolError where
  | ShuttingDown
  | TaskFailed (msg : String)
  | Timeout
  deriving DecidableEq

/-- Pool-level `TaskResult` (`src/worker_pool.rs` lines 28-32). -/
structure PoolTaskResult where
  id : String
  result : Except String Json
  duration_ms : Nat

/-- `WorkerTask` (`src/worker_pool.rs` lines 18-25).  The
`response_sender : Option<oneshot::Sender<TaskResult>>` field is modelled by
its presence bit; delivery through the channel is modelled in
`process_task` and `WorkerPool.submit_task`. -/
structure WorkerTask where
  id : String
  function_string : String
  data : Json
  timeout_ms : Option Nat
  has_response_sender : Bool

/-- The active-task map `HashMap<String, bool>`, modelled as an association
list: `insert` replaces any entry with the same key, `remove` deletes it. -/
abbrev Registry := List (String × Bool)

def regInsert (m : Registry) (k : String) (v : Bool) : Registry :=
  (k, v) :: m.filter (fun p => p.1 ≠ k)

def regRemove (m : Registry) (k : String) : Registry :=
  m.filter (fun p => p.1 ≠ k)

def regContains (m : Registry) (k : String) : Bool :=
  m.any (fun p => p.1 = k)

/-- Observable events of one `process_task` run, in program order. -/
inductive PoolEvent where
  | registryInsert (id : String)
  | evaluatorCall (id : String)
  | registryRemove (id : String)
  | sendResult (id : String)
  deriving DecidableEq

/-- What one `process_task` run produces. -/
structure ProcessOutcome where
  registry : Registry
  result : PoolTaskResult
  events : List PoolEvent
  delivered : Bool

/-- `WorkerPool::process_task` (`src/worker_pool.rs` lines 98-139): insert
the task id into the active map, run `execute_function` inside
`spawn_blocking`, remove the id, build the `TaskResult`, and send it through
the response channel when one is present.  The wall-clock measurement
`Instant::now()/elapsed()` is modelled by the `duration_ms` parameter.  The
`spawn_blocking` join-error branch (lines 116-119) fires only if the closure
panics, which `execute_function` never does, so the execution result is
`execute_function` applied directly. -/
def process_task (task : WorkerTask) (duration_ms : Nat)
    (active_tasks : Registry) : ProcessOutcome :=
  let afterInsert := regInsert active_tasks task.id true
  let result := execute_function task.function_string task.data
  let afterRemove := regRemove afterInsert task.id
  let task_result : PoolTaskResult :=
    { id := task.id, result := result, duration_ms := duration_ms }
  { registry := afterRemove
    result := task_result
    events :=
      [.registryInsert task.id, .evaluatorCall task.id,
        .registryRemove task.id] ++
        (if task.has_response_sender then [.sendResult task.id] else [])
    delivered := task.has_response_sender }

/-- `WorkerPool` state (`src/worker_pool.rs` lines 35-39).  `channelOpen`
models whether the unbounded mpsc channel behind `task_sender` is still
open (it closes only when every sender is dropped, i.e. when the pool value
itself is dropped). -/
structure WorkerPool where
  num_workers : Nat
  channelOpen : Bool
  active_tasks : Registry

/-- `WorkerPool::new` (lines 43-66): stores `num_workers` verbatim and opens
the dispatcher channel.  (The spawned dispatcher loop itself is modelled by
`DispatchStep` below.) -/
def WorkerPool.new (num_workers : Nat) : WorkerPool :=
  { num_workers := num_workers, channelOpen := true, active_tasks := [] }

/-- `WorkerPool::worker_count` (lines 86-88). -/
def WorkerPool.worker_count (p : WorkerPool) : Nat :=
  p.num_workers

/-- `WorkerPool::shutdown` (lines 91-95): the body is `Ok(())`.  Its comment
says the task sender will be dropped when the function completes, but the
method takes `&self` and drops nothing, so the pool state is returned
unchanged. -/
def WorkerPool.shutdown (p : WorkerPool) :
    WorkerPool × Except WorkerPoolError Unit :=
  (p, .ok ())

/-- `WorkerPool::submit_task_fire` (lines 81-83): sending on the channel
fails exactly when the channel is closed. -/
def WorkerPool.submit_task_fire (p : WorkerPool) (_task : WorkerTask) :
    Except WorkerPoolError Unit :=
  if p.channelOpen then .ok () else .error .ShuttingDown

/-- What becomes of a successfully enqueued task: either the dispatcher runs
`process_task` on it (taking `duration_ms` of wall time), or the queue is
dropped before the task is processed and the response sender is dropped
unused. -/
inductive PoolFate where
  | processed (duration_ms : Nat)
  | dropped

/-- `WorkerPool::submit_task` (lines 69-78): create a oneshot channel,
attach the sender to the task, send it on the queue (`ShuttingDown` if the
channel is closed), then await the receiver: the `process_task` result if it
was sent, `ShuttingDown` if the sender was dropped without sending. -/
def WorkerPool.submit_task (p : WorkerPool) (task : WorkerTask)
    (fate : PoolFate) : Except WorkerPoolError PoolTaskResult :=
  let task_with_sender : WorkerTask := { task with has_response_sender := true }
  if p.channelOpen then
    match fate with
    | .processed duration_ms =>
      .ok (process_task task_with_sender duration_ms p.active_tasks).result
    | .dropped => .error .ShuttingDown
  else .error .ShuttingDown

/-! ### The dispatcher loop

`WorkerPool::new` lines 54-64 spawn the dispatcher:

  while let Some(task) = task_receiver.recv().await \x7b
      tokio::spawn(async move \x7b Self::process_task(task, ...).await \x7d);
  \x7d

Each received task is spawned onto the runtime immediately: the loop
performs no semaphore or slot acquisition and never consults
`num_workers`.  `DispatchStep` is the induced small-step relation on the
queue and the multiset of concurrently running `process_task` invocations:
`recvSpawn` dequeues the head and adds it to the running set
unconditionally, and `finish` retires a running task when its evaluator
call returns. -/

structure DispatchState where
  num_workers : Nat
  queue : List WorkerTask
  running : List String

inductive DispatchStep : DispatchState → DispatchState → Prop where
  | recvSpawn (n : Nat) (t : WorkerTask) (q : List WorkerTask)
      (r : List String) :
      DispatchStep ⟨n, t :: q, r⟩ ⟨n, q, t.id :: r⟩
  | finish (n : Nat) (q : List WorkerTask) (i : String)
      (r1 r2 : List String) :
      DispatchStep ⟨n, q, r1 ++ i :: r2⟩ ⟨n, q, r1 ++ r2⟩

/-- States the dispatcher can reach from a given start state. -/
def DispatchReachable : DispatchState → DispatchState → Prop :=
  Relation.ReflTransGen DispatchStep

/-! ## Task executor (`src/task_executor.rs`) -/

/-- `TaskExecutorError` (`src/task_executor.rs` lines 9-16). -/
inductive TaskExecutorError where
  | workerPool (e : WorkerPoolError)
  | Timeout
  | NoTasks
  deriving DecidableEq

/-- `Task` (`src/task_executor.rs` lines 19-25). -/
structure Task where
  id : String
  function_string : String
  data : Json
  timeout : Option Nat

/-- Executor-level `TaskResult` (`src/task_executor.rs` lines 28-34). -/
structure TaskResult where
  id : String
  result : Json
  duration_ms : Nat
  error : Option String

/-- `TaskExecutor` (lines 37-39): its one piece of state. -/
structure TaskExecutor where
  default_timeout_ms : Nat

/-- `TaskExecutor::new` (lines 42-46). -/
def TaskExecutor.new : TaskExecutor :=
  { default_timeout_ms := 30000 }

/-- `TaskExecutor::set_default_timeout` (lines 181-183). -/
def TaskExecutor.set_default_timeout (ex : TaskExecutor) (timeout_ms : Nat) :
    TaskExecutor :=
  { ex with default_timeout_ms := timeout_ms }

/-- `TaskExecutor::get_default_timeout` (lines 186-188). -/
def TaskExecutor.get_default_timeout (ex : TaskExecutor) : Nat :=
  ex.default_timeout_ms

/-- `task.timeout.unwrap_or(self.default_timeout_ms)`
(`src/task_executor.rs` line 141). -/
def effective_timeout (ex : TaskExecutor) (task : Task) : Nat :=
  task.timeout.getD ex.default_timeout_ms

/-- The `WorkerTask` built by `execute_single_task` (lines 143-149):
`timeout_ms` is the effective timeout, `response_sender` is `None` here and
is attached later by `submit_task`. -/
def toWorkerTask (ex : TaskExecutor) (task : Task) : WorkerTask :=
  { id := task.id
    function_string := task.function_string
    data := task.data
    timeout_ms := some (effective_timeout ex task)
    has_response_sender := false }

/-- The same worker task after `submit_task` has attached the response
sender (`src/worker_pool.rs` lines 70-73). -/
def submittedWorkerTask (ex : TaskExecutor) (task : Task) : WorkerTask :=
  { toWorkerTask ex task with has_response_sender := true }

/-- How the pool answers one submission, from the executor's point of view:
`outcome` is the value `worker_pool.submit_task(..).await` resolves to and
`delay_ms` is the wall time until it resolves.  Both are environment
parameters: they depend on queueing, scheduling and the evaluator's
running time. -/
structure PoolResponse where
  delay_ms : Nat
  outcome : Except WorkerPoolError PoolTaskResult

/-- Lines 161-177 of `execute_single_task`: convert the pool `TaskResult`
into the executor `TaskResult` — an evaluator error is carried in the
`error` field, with `Null` as the result value. -/
def convert_pool_result (pool_result : PoolTaskResult) : TaskResult :=
  match pool_result.result with
  | .ok result =>
    { id := pool_result.id, result := result,
      duration_ms := pool_result.duration_ms, error := none }
  | .error error =>
    { id := pool_result.id, result := .null,
      duration_ms := pool_result.duration_ms, error := some error }

/-- `TaskExecutor::execute_single_task` (lines 136-179): when the effective
timeout is positive, race the pool submission against it —
`tokio::time::timeout` yields `Elapsed` (mapped to `Timeout`) when the
submission has not resolved within the window, i.e. when `delay_ms`
exceeds it; with a zero effective timeout, await the submission with no
race at all.  Pool errors are then lifted by `?` through
`From<WorkerPoolError>`, and a delivered pool result is converted. -/
def execute_single_task (ex : TaskExecutor) (env : Task → PoolResponse)
    (task : Task) : Except TaskExecutorError TaskResult :=
  let task_timeout := effective_timeout ex task
  let resp := env task
  if task_timeout > 0 ∧ resp.delay_ms > task_timeout then
    .error .Timeout
  else
    match resp.outcome with
    | .error e => .error (.workerPool e)
    | .ok pool_result => .ok (convert_pool_result pool_result)

/-- `TaskExecutor::execute_all` (lines 50-66): `NoTasks` on an empty input,
otherwise `future::try_join_all` over the per-task futures — all results in
input order on success, the first failure aborts the whole batch and is
returned with no partial results.  In this deterministic embedding the
first failing task in input order supplies the error; in the source, which
failing task's error is surfaced depends on completion timing, and the
theorems below rely only on error-versus-success, never on which error. -/
def execute_all (ex : TaskExecutor) (env : Task → PoolResponse)
    (tasks : List Task) : Except TaskExecutorError (List TaskResult) :=
  if tasks.isEmpty then .error .NoTasks
  else tasks.mapM (execute_single_task ex env)

/-- The wall time at which the future `execute_single_task ex env task`
resolves: at the timeout window when the race is lost, otherwise when the
pool submission resolves. -/
def completion_ms (ex : TaskExecutor) (env : Task → PoolResponse)
    (task : Task) : Nat :=
  let task_timeout := effective_timeout ex task
  let d := (env task).delay_ms
  if task_timeout > 0 ∧ d > task_timeout then task_timeout else d

/-- Stable insertion, keeping an element before all later-inserted elements
with an equal key. -/
def insertByKey (key : Task → Nat) (t : Task) : List Task → List Task
  | [] => [t]
  | u :: us =>
    if key u < key t then u :: insertByKey key t us else t :: u :: us

/-- Stable sort by key: elements with equal keys keep their input order. -/
def sortByKey (key : Task → Nat) : List Task → List Task
  | [] => []
  | t :: ts => insertByKey key t (sortByKey key ts)

/-- `TaskExecutor::execute_stream` (lines 69-103): `NoTasks` on empty
input; otherwise repeated `future::select_all`, collecting results in
completion order and returning the first failure as soon as it is
selected.  `select_all` yields futures in completion-time order, breaking
ties by poll (list) order, which is exactly a stable sort by
`completion_ms`; the remaining loop is a fail-fast traversal in that
order. -/
def execute_stream (ex : TaskExecutor) (env : Task → PoolResponse)
    (tasks : List Task) : Except TaskExecutorError (List TaskResult) :=
  if tasks.isEmpty then .error .NoTasks
  else
    (sortByKey (completion_ms ex env) tasks).mapM (execute_single_task ex env)

/-- `TaskExecutor::execute_race` (lines 116-134): `NoTasks` on empty input;
otherwise a single `future::select_all` — the result of the future that
completes first (earliest `completion_ms`, lowest index on ties). -/
def execute_race (ex : TaskExecutor) (env : Task → PoolResponse)
    (tasks : List Task) : Except TaskExecutorError TaskResult :=
  match tasks with
  | [] => .error .NoTasks
  | t :: ts =>
    execute_single_task ex env
      (ts.foldl
        (fun best u =>
          if completion_ms ex env u < completion_ms ex env best then u
          else best)
        t)

/-- `TaskExecutor::execute_fire` (lines 106-113): wrap each task with
`timeout_ms := task.timeout.or(Some(default))` and no response sender, and
submit it fire-and-forget, ignoring the send result. -/
def execute_fire (ex : TaskExecutor) (p : WorkerPool) (tasks : List Task) :
    List (Except WorkerPoolError Unit) :=
  tasks.map (fun task =>
    p.submit_task_fire
      { id := task.id
        function_string := task.function_string
        data := task.data
        timeout_ms := (task.timeout).orElse (fun _ => some ex.default_timeout_ms)
        has_response_sender := false })

/-! ## Binding layer (`src/lib.rs`) -/

/-- `OptimizedMultiCoreExecutor::new` worker-count resolution (`src/lib.rs`
line 102): `worker_count.unwrap_or_else(|| num_cpus::get() as u32)`.  The
host's reported logical core count is the parameter `ncpus`. -/
def resolve_worker_count (worker_count : Option Nat) (ncpus : Nat) : Nat :=
  worker_count.getD ncpus

/-! ## Helper lemmas -/

theorem mapM_ok_of_all_ok {ε α β : Type} (f : α → Except ε β) :
    ∀ (l : List α), (∀ a ∈ l, ∃ b, f a = .ok b) →
      ∃ rs, l.mapM f = .ok rs ∧ rs.length = l.length ∧
        ∀ i (h : i < l.length) (h2 : i < rs.length),
          f (l.get ⟨i, h⟩) = .ok (rs.get ⟨i, h2⟩) := by
  intro l
  induction l with
  | nil =>
    intro _
    exact ⟨[], by simp [List.mapM_nil]; rfl, rfl,
      fun i h h2 => absurd h (Nat.not_lt_zero i)⟩
  | cons a l ih =>
    intro hall
    obtain ⟨b, hb⟩ := hall a (List.mem_cons_self a l)
    obtain ⟨rs, hrs, hlen, hpt⟩ :=
      ih (fun x hx => hall x (List.mem_cons_of_mem a hx))
    refine ⟨b :: rs, ?_, by simp [hlen], ?_⟩
    · rw [List.mapM_cons, hb, hrs]
      rfl
    · intro i h h2
      cases i with
      | zero => simpa using hb
      | succ j =>
        have hj : j < l.length := Nat.lt_of_succ_lt_succ h
        have hj2 : j < rs.length := Nat.lt_of_succ_lt_succ h2
        simpa using hpt j hj hj2

theorem mapM_error_of_mem {ε α β : Type} (f : α → Except ε β) :
    ∀ (l : List α) (a : α), a ∈ l → ∀ e, f a = .error e →
      ∃ e2, l.mapM f = .error e2 := by
  intro l
  induction l with
  | nil => intro a ha; exact absurd ha (List.not_mem_nil a)
  | cons b l ih =>
    intro a ha e he
    rcases List.mem_cons.mp ha with h | h
    · subst h
      refine ⟨e, ?_⟩
      rw [List.mapM_cons, he]
      rfl
    · cases hfb : f b with
      | error e3 =>
        refine ⟨e3, ?_⟩
        rw [List.mapM_cons, hfb]
        rfl
      | ok v =>
        obtain ⟨e2, he2⟩ := ih a h e he
        refine ⟨e2, ?_⟩
        rw [List.mapM_cons, hfb, he2]
        rfl

theorem mem_insertByKey (key : Task → Nat) (t a : Task) :
    ∀ l : List Task, (a ∈ insertByKey key t l ↔ a = t ∨ a ∈ l) := by
  intro l
  induction l with
  | nil => simp [insertByKey]
  | cons u us ih =>
    by_cases hc : key u < key t
    · simp only [insertByKey, if_pos hc, List.mem_cons, ih]
      tauto
    · simp only [insertByKey, if_neg hc, List.mem_cons]

theorem mem_sortByKey (key : Task → Nat) (a : Task) :
    ∀ l : List Task, (a ∈ sortByKey key l ↔ a ∈ l) := by
  intro l
  induction l with
  | nil => simp [sortByKey]
  | cons t ts ih =>
    simp only [sortByKey, mem_insertByKey, List.mem_cons, ih]

theorem regContains_regRemove_self (m : Registry) (k : String) :
    regContains (regRemove m k) k = false := by
  simp only [regContains, regRemove]
  rw [Bool.eq_false_iff]
  intro hany
  obtain ⟨p, hp, hpk⟩ := List.any_eq_true.mp hany
  obtain ⟨-, hne⟩ := List.mem_filter.mp hp
  rw [decide_eq_true_eq] at hne hpk
  exact hne hpk

/-! ## Claim theorems -/

/-- C5: `execute_all`, `execute_stream`, and `execute_race` called with an
empty task list always fail with the `NoTasks` error. -/
theorem empty_list_fails_with_no_tasks (ex : TaskExecutor)
    (env : Task → PoolResponse) :
    execute_all ex env [] = .error .NoTasks ∧
    execute_stream ex env [] = .error .NoTasks ∧
    execute_race ex env [] = .error .NoTasks :=
  ⟨rfl, rfl, rfl⟩

/-- C8: for every dispatched task, `process_task` inserts an entry keyed by
the task id into the active-task registry immediately before the evaluator
is invoked (the registry in force at the `evaluatorCall` event is
`regInsert active_tasks task.id true`, which contains the id) and removes
it immediately after the evaluator returns, whether the evaluation
succeeded or failed (the event trace is insert, call, remove, then the
optional send, with nothing in between); afterwards the registry no longer
contains that task's entry. -/
theorem registry_entry_scoped_to_evaluator (task : WorkerTask)
    (duration_ms : Nat) (active_tasks : Registry) :
    regContains (process_task task duration_ms active_tasks).registry task.id
        = false ∧
    regContains (regInsert active_tasks task.id true) task.id = true ∧
    (process_task task duration_ms active_tasks).events =
      [.registryInsert task.id, .evaluatorCall task.id,
          .registryRemove task.id] ++
        (if task.has_response_sender then [.sendResult task.id] else []) := by
  refine ⟨regContains_regRemove_self _ _, ?_, rfl⟩
  simp [regContains, regInsert]

/-- C9 counterexample: a pool configured with `workerCount = 0` keeps zero,
it is not resolved to the host's logical core count — with a host
reporting 8 logical cores, the binding layer's resolution maps `Some(0)`
to 0, and `WorkerPool::new(0)` then reports a worker count of 0, not 8. -/
theorem worker_count_zero_stays_zero :
    resolve_worker_count (some 0) 8 = 0 ∧
    (WorkerPool.new 0).worker_count = 0 ∧ (0 : Nat) ≠ 8 :=
  ⟨rfl, rfl, by decide⟩

/-- C9 amended: only an *unset* worker count resolves to the host's logical
core count (`worker_count.unwrap_or_else(num_cpus::get)` in the binding
layer); every explicitly configured value — including zero — is kept
verbatim, and `WorkerPool::worker_count` returns exactly the value the
pool was constructed with. -/
theorem worker_count_resolution (w ncpus : Nat) :
    resolve_worker_count none ncpus = ncpus ∧
    resolve_worker_count (some w) ncpus = w ∧
    (WorkerPool.new w).worker_count = w :=
  ⟨rfl, rfl, rfl⟩

/-- A concrete task submitted after shutdown (its function string matches
no evaluator pattern, so the evaluator returns the data unchanged). -/
def lateTask : WorkerTask :=
  { id := "late", function_string := "noop", data := .str "x",
    timeout_ms := some 100, has_response_sender := false }

/-- C3: the claim says every submission after `shutdown()` fails with
`ShuttingDown`.  The code's `shutdown` body is just `Ok(())` — it takes
`&self` and drops nothing, so contrary to its own comment the channel
stays open: the pool state is returned unchanged, and both `submit_task`
(which completes normally, here delivering the identity result) and
`submit_task_fire` still succeed afterwards. -/
theorem shutdown_is_noop_and_still_accepts :
    (∀ p : WorkerPool, p.shutdown = (p, .ok ())) ∧
    ((WorkerPool.new 2).shutdown).1.submit_task lateTask (.processed 5) =
      .ok { id := "late", result := .ok (.str "x"), duration_ms := 5 } ∧
    ((WorkerPool.new 2).shutdown).1.submit_task_fire lateTask = .ok () :=
  ⟨fun _ => rfl, rfl, rfl⟩

/-- A generic worker task used to populate the dispatcher queue. -/
def queuedWorkerTask (id : String) : WorkerTask :=
  { id := id, function_string := "x => x * 2", data := .num 1,
    timeout_ms := some 100, has_response_sender := true }

/-- C1: the claim says the dispatcher acquires one of `workerCount`
execution slots before each evaluator call, bounding peak concurrency.
The dispatcher loop in `WorkerPool::new` spawns every received task
immediately and never consults `num_workers`, so with `workerCount = 2`
and four queued blocking tasks it reaches a state where all four
evaluator invocations are running concurrently. -/
theorem dispatcher_admits_more_than_worker_count :
    DispatchReachable
      ⟨2, [queuedWorkerTask "t1", queuedWorkerTask "t2",
            queuedWorkerTask "t3", queuedWorkerTask "t4"], []⟩
      ⟨2, [], ["t4", "t3", "t2", "t1"]⟩ ∧
    (DispatchState.mk 2 [] ["t4", "t3", "t2", "t1"]).running.length >
      (DispatchState.mk 2 [] ["t4", "t3", "t2", "t1"]).num_workers := by
  constructor
  · have h1 := DispatchStep.recvSpawn 2 (queuedWorkerTask "t1")
      [queuedWorkerTask "t2", queuedWorkerTask "t3", queuedWorkerTask "t4"] []
    have h2 := DispatchStep.recvSpawn 2 (queuedWorkerTask "t2")
      [queuedWorkerTask "t3", queuedWorkerTask "t4"] ["t1"]
    have h3 := DispatchStep.recvSpawn 2 (queuedWorkerTask "t3")
      [queuedWorkerTask "t4"] ["t2", "t1"]
    have h4 := DispatchStep.recvSpawn 2 (queuedWorkerTask "t4")
      [] ["t3", "t2", "t1"]
    exact Relation.ReflTransGen.tail (Relation.ReflTransGen.tail
      (Relation.ReflTransGen.tail (Relation.ReflTransGen.tail
        Relation.ReflTransGen.refl h1) h2) h3) h4
  · decide

/-- Task whose evaluation succeeds (`toUpperCase` pattern). -/
def upperTask : Task :=
  { id := "a", function_string := "(x) => x.toUpperCase()",
    data := .str "hi", timeout := some 1000 }

/-- Task whose evaluator call fails: the multiply pattern applied to a
string yields `Err("Expected number for multiplication")`. -/
def badEvalTask : Task :=
  { id := "b", function_string := "x => x * 2", data := .str "oops",
    timeout := some 1000 }

/-- Pool-backed environment: every submission is accepted by a fresh
4-worker pool, processed in 7 ms of evaluator time, and the response
arrives 5 ms after submission. -/
def promptEnv : Task → PoolResponse := fun task =>
  { delay_ms := 5
    outcome :=
      (WorkerPool.new 4).submit_task (toWorkerTask TaskExecutor.new task)
        (.processed 7) }

/-- C2 counterexample: the claim says an Evaluator error aborts the whole
batch and is returned as the combinator's error.  With one succeeding task
and one whose evaluator fails, both `execute_all` and `execute_stream`
return `Ok` — the evaluator failure is delivered *inside* the second
`TaskResult` (`error` field set, `Null` result), not as the combinator's
error, and a full result list is returned. -/
theorem evaluator_failure_does_not_abort_batch :
    execute_all TaskExecutor.new promptEnv [upperTask, badEvalTask] =
      .ok [{ id := "a", result := .str "HI", duration_ms := 7, error := none },
           { id := "b", result := .null, duration_ms := 7,
             error := some "Expected number for multiplication" }] ∧
    execute_stream TaskExecutor.new promptEnv [upperTask, badEvalTask] =
      .ok [{ id := "a", result := .str "HI", duration_ms := 7, error := none },
           { id := "b", result := .null, duration_ms := 7,
             error := some "Expected number for multiplication" }] :=
  ⟨rfl, rfl⟩

/-- C2 amended: the fail-fast rule holds for the failures that surface as
combinator errors — timeout and pool shutdown: whenever some task's
single-task execution fails, `execute_all` and `execute_stream` each
return an error (the whole batch is aborted, no partial result list is
produced), and every such single-task failure is a `Timeout` or a
propagated pool error; an Evaluator error is not one of them — it is
delivered inside a normal `TaskResult` and does not abort the batch (see
the counterexample). -/
theorem fail_fast_on_timeout_or_shutdown (ex : TaskExecutor)
    (env : Task → PoolResponse) (tasks : List Task) (t : Task)
    (e : TaskExecutorError) (hmem : t ∈ tasks)
    (herr : execute_single_task ex env t = .error e) :
    (∃ e1, execute_all ex env tasks = .error e1) ∧
    (∃ e2, execute_stream ex env tasks = .error e2) ∧
    (e = .Timeout ∨ ∃ pe, e = .workerPool pe) := by
  have hne : tasks.isEmpty = false := by
    cases tasks with
    | nil => exact absurd hmem (List.not_mem_nil t)
    | cons a l => rfl
  refine ⟨?_, ?_, ?_⟩
  · obtain ⟨e2, he2⟩ := mapM_error_of_mem _ tasks t hmem e herr
    refine ⟨e2, ?_⟩
    rw [execute_all, hne]
    simpa using he2
  · have hmem2 : t ∈ sortByKey (completion_ms ex env) tasks :=
      (mem_sortByKey _ t tasks).mpr hmem
    obtain ⟨e2, he2⟩ := mapM_error_of_mem _ _ t hmem2 e herr
    refine ⟨e2, ?_⟩
    rw [execute_stream, hne]
    simpa using he2
  · simp only [execute_single_task] at herr
    split at herr
    · exact .inl (Except.error.inj herr).symm
    · split at herr
      · exact .inr ⟨_, (Except.error.inj herr).symm⟩
      · exact absurd herr (by simp)

/-- A task whose effective timeout (10 ms) is shorter than the 50 ms the
pool takes to answer. -/
def slowTask : Task :=
  { id := "slow", function_string := "noop", data := .str "x",
    timeout := some 10 }

/-- Environment in which every pool response takes 50 ms. -/
def slowEnv : Task → PoolResponse := fun _ =>
  { delay_ms := 50, outcome := .ok ⟨"slow", .ok (.str "x"), 49⟩ }

/-- Witness for the amended C2 theorem at a concrete timing-out task. -/
theorem fail_fast_on_timeout_or_shutdown_witness :
    (∃ e1, execute_all TaskExecutor.new slowEnv [slowTask] = .error e1) ∧
    (∃ e2, execute_stream TaskExecutor.new slowEnv [slowTask] = .error e2) ∧
    (TaskExecutorError.Timeout = .Timeout ∨
      ∃ pe, TaskExecutorError.Timeout = .workerPool pe) :=
  fail_fast_on_timeout_or_shutdown TaskExecutor.new slowEnv [slowTask]
    slowTask .Timeout (List.mem_singleton.mpr rfl) rfl

/-- C4: for every non-empty task list on which no single-task execution
fails, `execute_all` returns a result list of the same length as the
input, in input order: the i-th returned result is exactly the result of
the i-th input task.  The environment (hence every task's completion
time) is arbitrary, so the order is independent of which task finished
first. -/
theorem execute_all_preserves_length_and_order (ex : TaskExecutor)
    (env : Task → PoolResponse) (tasks : List Task) (hne : tasks ≠ [])
    (hok : ∀ t ∈ tasks, ∃ r, execute_single_task ex env t = .ok r) :
    ∃ rs, execute_all ex env tasks = .ok rs ∧ rs.length = tasks.length ∧
      ∀ i (h : i < tasks.length) (h2 : i < rs.length),
        execute_single_task ex env (tasks.get ⟨i, h⟩) =
          .ok (rs.get ⟨i, h2⟩) := by
  obtain ⟨rs, hrs, hlen, hpt⟩ := mapM_ok_of_all_ok _ tasks hok
  have hne2 : tasks.isEmpty = false := by
    cases tasks with
    | nil => exact absurd rfl hne
    | cons a l => rfl
  refine ⟨rs, ?_, hlen, hpt⟩
  rw [execute_all, hne2]
  simpa using hrs

/-- Witness for C4 at a concrete two-task batch over the pool-backed
environment. -/
theorem execute_all_preserves_length_and_order_witness :
    ∃ rs, execute_all TaskExecutor.new promptEnv [upperTask] = .ok rs ∧
      rs.length = [upperTask].length ∧
      ∀ i (h : i < [upperTask].length) (h2 : i < rs.length),
        execute_single_task TaskExecutor.new promptEnv
            ([upperTask].get ⟨i, h⟩) = .ok (rs.get ⟨i, h2⟩) :=
  execute_all_preserves_length_and_order TaskExecutor.new promptEnv
    [upperTask] (by simp)
    (by
      intro t ht
      rw [List.mem_singleton] at ht
      subst ht
      exact ⟨_, rfl⟩)

/-- C6: the effective timeout is `task.timeout` when set and
`default_timeout_ms` otherwise; when it is positive and elapses before the
pool delivers (`delay_ms` exceeds it), the caller receives the `Timeout`
error — while the pool-side processing of the very same submitted worker
task is unaffected: `process_task` still runs the evaluator to completion,
removes the registry entry and produces (and sends) its result, exactly as
without the timeout.  The timeout stops only the caller's wait. -/
theorem timeout_stops_callers_wait_not_pool_task (ex : TaskExecutor)
    (env : Task → PoolResponse) (task : Task) (active_tasks : Registry)
    (duration_ms : Nat) (hpos : 0 < effective_timeout ex task)
    (hlate : effective_timeout ex task < (env task).delay_ms) :
    execute_single_task ex env task = .error .Timeout ∧
    (∀ k, task.timeout = some k → effective_timeout ex task = k) ∧
    (task.timeout = none → effective_timeout ex task = ex.default_timeout_ms) ∧
    (process_task (submittedWorkerTask ex task) duration_ms active_tasks).events
        = [.registryInsert task.id, .evaluatorCall task.id,
            .registryRemove task.id, .sendResult task.id] ∧
    (process_task (submittedWorkerTask ex task) duration_ms active_tasks).result
        = ⟨task.id, execute_function task.function_string task.data,
            duration_ms⟩ := by
  refine ⟨?_, ?_, ?_, rfl, rfl⟩
  · simp only [execute_single_task]
    rw [if_pos ⟨hpos, hlate⟩]
  · intro k hk
    simp [effective_timeout, hk]
  · intro hk
    simp [effective_timeout, hk]

/-- Witness for C6 at the concrete slow task (effective timeout 10 ms,
pool answer after 50 ms). -/
theorem timeout_stops_callers_wait_not_pool_task_witness :
    execute_single_task TaskExecutor.new slowEnv slowTask = .error .Timeout ∧
    (∀ k, slowTask.timeout = some k →
      effective_timeout TaskExecutor.new slowTask = k) ∧
    (slowTask.timeout = none →
      effective_timeout TaskExecutor.new slowTask =
        TaskExecutor.new.default_timeout_ms) ∧
    (process_task (submittedWorkerTask TaskExecutor.new slowTask) 49 []).events
        = [.registryInsert slowTask.id, .evaluatorCall slowTask.id,
            .registryRemove slowTask.id, .sendResult slowTask.id] ∧
    (process_task (submittedWorkerTask TaskExecutor.new slowTask) 49 []).result
        = ⟨slowTask.id,
            execute_function slowTask.function_string slowTask.data, 49⟩ :=
  timeout_stops_callers_wait_not_pool_task TaskExecutor.new slowEnv slowTask
    [] 49 (by decide) (by decide)

/-- C7: a task submitted with a response channel observes exactly one
outcome — either one delivered `TaskResult` or the pool-level
`ShuttingDown` error; when the channel is open and the task is processed,
an Evaluator error is not a pool failure: it arrives as a normally
delivered `TaskResult` carrying `failure(message)`.  A closed queue or a
response sender dropped before delivery each surface as `ShuttingDown`. -/
theorem submit_observes_exactly_one_outcome (p : WorkerPool)
    (task : WorkerTask) (fate : PoolFate) (msg : String) (d : Nat)
    (hopen : p.channelOpen = true) (hfate : fate = .processed d)
    (hmsg : execute_function task.function_string task.data = .error msg) :
    ((∃ tr, p.submit_task task fate = .ok tr) ∨
      p.submit_task task fate = .error .ShuttingDown) ∧
    p.submit_task task fate =
      .ok { id := task.id, result := .error msg, duration_ms := d } ∧
    WorkerPool.submit_task { p with channelOpen := false } task fate =
      .error .ShuttingDown ∧
    p.submit_task task .dropped = .error .ShuttingDown := by
  subst hfate
  have hok : p.submit_task task (.processed d) =
      .ok { id := task.id, result := .error msg, duration_ms := d } := by
    simp [WorkerPool.submit_task, hopen, process_task, hmsg]
  refine ⟨.inl ⟨_, hok⟩, hok, ?_, ?_⟩
  · simp [WorkerPool.submit_task]
  · simp [WorkerPool.submit_task, hopen]

/-- The worker task corresponding to `badEvalTask`. -/
def badEvalWorkerTask : WorkerTask :=
  { id := "b", function_string := "x => x * 2", data := .str "oops",
    timeout_ms := some 1000, has_response_sender := false }

/-- Witness for C7 at a concrete pool and evaluator-failing task. -/
theorem submit_observes_exactly_one_outcome_witness :
    ((∃ tr, (WorkerPool.new 2).submit_task badEvalWorkerTask (.processed 5)
        = .ok tr) ∨
      (WorkerPool.new 2).submit_task badEvalWorkerTask (.processed 5)
        = .error .ShuttingDown) ∧
    (WorkerPool.new 2).submit_task badEvalWorkerTask (.processed 5) =
      .ok { id := badEvalWorkerTask.id,
            result := .error "Expected number for multiplication",
            duration_ms := 5 } ∧
    WorkerPool.submit_task { WorkerPool.new 2 with channelOpen := false }
        badEvalWorkerTask (.processed 5) = .error .ShuttingDown ∧
    (WorkerPool.new 2).submit_task badEvalWorkerTask .dropped =
      .error .ShuttingDown :=
  submit_observes_exactly_one_outcome (WorkerPool.new 2) badEvalWorkerTask
    (.processed 5) "Expected number for multiplication" 5 rfl rfl rfl

/-- C10: a task whose effective timeout is zero is awaited with no timeout
race at all — `execute_single_task` goes straight to the pool submission,
can never produce the executor's `Timeout` error, and returns exactly the
pool outcome (converted, or the lifted pool error).  Zero means "no
timeout", not "expire immediately". -/
theorem zero_effective_timeout_means_no_deadline (ex : TaskExecutor)
    (env : Task → PoolResponse) (task : Task)
    (hzero : effective_timeout ex task = 0) :
    execute_single_task ex env task ≠ .error .Timeout ∧
    execute_single_task ex env task =
      (match (env task).outcome with
        | .error e => .error (.workerPool e)
        | .ok pool_result => .ok (convert_pool_result pool_result)) := by
  have hcond : ¬(effective_timeout ex task > 0 ∧
      (env task).delay_ms > effective_timeout ex task) := by
    rw [hzero]
    rintro ⟨h, -⟩
    exact Nat.lt_irrefl 0 h
  have heq : execute_single_task ex env task =
      (match (env task).outcome with
        | .error e => .error (.workerPool e)
        | .ok pool_result => .ok (convert_pool_result pool_result)) := by
    simp only [execute_single_task]
    rw [if_neg hcond]
  refine ⟨?_, heq⟩
  rw [heq]
  cases (env task).outcome with
  | error e => simp
  | ok pr => simp

/-- A task explicitly configured with a zero timeout. -/
def zeroTimeoutTask : Task :=
  { id := "z", function_string := "noop", data := .str "v",
    timeout := some 0 }

/-- Environment whose answer takes far longer than any plausible deadline. -/
def verySlowEnv : Task → PoolResponse := fun _ =>
  { delay_ms := 999999, outcome := .ok ⟨"z", .ok (.str "v"), 999998⟩ }

/-- Witness for C10: with timeout 0 and a 999999 ms pool delay, the task
still resolves to the pool outcome, never `Timeout`. -/
theorem zero_effective_timeout_means_no_deadline_witness :
    execute_single_task TaskExecutor.new verySlowEnv zeroTimeoutTask ≠
      .error .Timeout ∧
    execute_single_task TaskExecutor.new verySlowEnv zeroTimeoutTask =
      (match (verySlowEnv zeroTimeoutTask).outcome with
        | .error e => .error (.workerPool e)
        | .ok pool_result => .ok (convert_pool_result pool_result)) :=
  zero_effective_timeout_means_no_deadline TaskExecutor.new verySlowEnv
    zeroTimeoutTask rfl

end Threader
